import Mathlib

/-!
Verification of the batch-rebuild orchestrator in `akanda/rug/cli/router.py`
(class `RouterBatchedRebuild`).

The embedding below translates the relevant parts of the Python source:

* `chunked` / `xrange` — the pure chunking generator (`RouterBatchedRebuild.chunked`,
  lines 193–196) together with the Python 2 `xrange` semantics it relies on,
  including the `ValueError` raised by a zero step.
* `parseBatch` — the `--batch` argument of `get_parser` (lines 188–191):
  an `int`-typed flag with default 15 and no further validation.
* the driver's per-chunk classification and wait loop (`take_action`,
  lines 198–264).
* the worker loop (`check_alive`, lines 289–350), both as an executable
  function over observation traces and as a labelled transition system used
  for reachability and invariant statements.

External services (neutron, nova) are modelled as oracles: lists of
observations, or `Except`-valued call results when a call can raise.
-/

namespace AkandaRug

universe u

variable {α : Type u}

/-! ## Chunking (`RouterBatchedRebuild.chunked`, router.py lines 193–196) -/

/-- Python 2 `xrange(0, stop, step)` as used by `chunked`: the index list
`[0, step, 2*step, ...)` below `stop`.  A zero step raises
`ValueError: xrange() arg 3 must not be zero`; a negative step with
`start = 0 ≤ stop` yields no indices. -/
def xrange (stop : Nat) (step : Int) : Except String (List Nat) :=
  if step = 0 then Except.error "xrange() arg 3 must not be zero"
  else if 0 < step then
    Except.ok ((List.range ((stop + (step.toNat - 1)) / step.toNat)).map
      (fun k => step.toNat * k))
  else Except.ok []

/-- Translation of `chunked(l, n)`: `for i in xrange(0, len(l), n): yield l[i:i+n]`.
The slice `l[i:i+n]` for `0 ≤ i` and `0 < n` is `(l.drop i).take n`. -/
def chunked (l : List α) (n : Int) : Except String (List (List α)) :=
  (xrange l.length n).map (fun idxs => idxs.map (fun i => (l.drop i).take n.toNat))

/-- The `--batch` flag of `RouterBatchedRebuild.get_parser` (lines 188–191):
`type=int, default=15`, with no sign or positivity validation. -/
def parseBatch : Option Int → Int
  | none => 15
  | some v => v

/-- Recursive reference form of the chunk list, used to reason about `chunked`. -/
def chunksOf (l : List α) (n : Nat) : List (List α) :=
  if h : l.length = 0 ∨ n = 0 then [] else l.take n :: chunksOf (l.drop n) n
termination_by l.length
decreasing_by
  push_neg at h
  simp only [List.length_drop]
  omega

/-! ## Data model (router.py lines 150, 289–350)

Routers travel through the queues as the neutron router dicts; the fields the
core reads are `id`, `name` and `status`.  Compute instances expose `id`,
`status` and `image['id']`. -/

structure Router where
  id : String
  name : String
  status : String
deriving DecidableEq

structure Server where
  id : String
  status : String
  image : String
deriving DecidableEq

/-! ## The poll-iteration decision (`check_alive` body, lines 316–329)

One iteration of the worker's while-loop re-fetches the router (`r` below is
the refetched dict) and re-resolves the instance, then walks the chain of
guarded `continue` statements.  `old` is the baseline
`getattr(self.get_instance(router), 'id', None)` recorded at pop time, so it
is `none` when no instance existed then; Python's `old_uuid != server.id`
is true whenever `old` is `none` or holds a different id. -/

def pollDecision (old : Option String) (r : Router) (server : Option Server) : Bool :=
  match server with
  | none => false
  | some srv =>
    if srv.status ≠ "ACTIVE" then false
    else if old = some srv.id then false
    else if r.status ≠ "ACTIVE" then false
    else true

/-- One poll observation: the router state returned by `show_router` and the
instance returned by `get_instance`. -/
structure PollObs where
  router : Router
  server : Option Server
deriving DecidableEq

/-- The poll loop of `check_alive` on a single held router, consuming one
observation per iteration and counting iterations; it stops at the first
observation whose conditions all hold (line 334, `active.append`) and
reports whether convergence was marked.  The observation list ending models
the shutdown flag being observed at line 315. -/
def pollRun (old : Option String) : List PollObs → Nat → Nat × Bool
  | [], polls => (polls, false)
  | o :: rest, polls =>
    if pollDecision old o.router o.server then (polls + 1, true)
    else pollRun old rest (polls + 1)

/-! ## Exception handling inside `check_alive` (lines 302–348)

`check_alive` calls `pop()` at line 313 *outside* the `try` block, so an
exception raised by `self.get_instance(router)` inside that first `pop()`
propagates out of `check_alive`.  Exceptions raised inside the while-loop
body are caught at line 336: the handler reports, appends the currently
held router back onto the queue and continues the loop *with that same
router still held*. -/

/-- Outcome of the external calls of one loop iteration: either both
`show_router` and `get_instance` returned (`ok`), or one of them raised.
For a raise, `afterShow` records the refetched router when `show_router`
had already returned before `get_instance` raised (`none` when
`show_router` itself raised), because the handler requeues whatever the
`router` variable holds at that point. -/
inductive PollEvent where
  | ok (router : Router) (server : Option Server)
  | exn (afterShow : Option Router) (msg : String)
deriving DecidableEq

/-- The while-loop of `check_alive` over a trace of call outcomes, carrying
the queue and active deques.  On a caught exception the held router is
appended to the queue (line 347) and the loop continues holding it; on
convergence the refetched router is appended to `active` and the model stops
(the subsequent re-pop is a fresh cycle).  An exhausted trace models the
shutdown flag test at line 315 ending the loop. -/
def checkAliveLoop (queue active : List Router) (r : Router) (old : Option String) :
    List PollEvent → List Router × List Router
  | [] => (queue, active)
  | PollEvent.exn afterShow _ :: rest =>
    checkAliveLoop (queue ++ [afterShow.getD r]) active (afterShow.getD r) old rest
  | PollEvent.ok r' server :: rest =>
    if pollDecision old r' server then (queue, active ++ [r'])
    else checkAliveLoop queue active r' old rest

/-- Entry of `check_alive` (lines 313–315): the initial `pop()` takes the
router from the right end of the queue and records the baseline instance id.
`popInst` is the result of that `get_instance` call; when it raises, the
exception escapes `check_alive` (the call at line 313 is outside the `try`),
which we model as an `Except.error` outcome for the whole worker. -/
def checkAlive (queue0 : List Router) (popInst : Except String (Option Server))
    (events : List PollEvent) : Except String (List Router × List Router) :=
  match queue0.getLast? with
  | none => Except.ok (queue0, [])
  | some r =>
    popInst.map fun srv => checkAliveLoop queue0.dropLast [] r (srv.map Server.id) events

/-! ## Driver per-chunk classification (`take_action`, lines 213–225)

For each router of a chunk the driver resolves the instance and then runs:
`if not server: print "No VM found"` — with **no** `continue`, so control
falls through to the rebuild report and `rebooting.append(router)`;
`elif target == server.image['id']: print "up-to-date"; continue`;
otherwise report and append. -/

inductive Report where
  | noVM (id : String)
  | upToDate (id : String)
  | rebuilding (id : String) (name : String)
deriving DecidableEq

/-- Classification of one router of a chunk: the reports it prints and
whether it is appended to `rebooting`. -/
def classify (target : String) (r : Router) (server : Option Server) :
    List Report × Bool :=
  match server with
  | none => ([Report.noVM r.id, Report.rebuilding r.id r.name], true)
  | some srv =>
    if target = srv.image then ([Report.upToDate r.id], false)
    else ([Report.rebuilding r.id r.name], true)

/-- The per-chunk loop body of `take_action` over a chunk paired with its
`get_instance` results: accumulated reports and the `rebooting` list.  The
drivers then runs `self.queue.extend(rebooting)` and invokes the rebuild
action once per element of `rebooting`. -/
def buildRebooting (target : String) :
    List (Router × Option Server) → List Report × List Router
  | [] => ([], [])
  | (r, srv) :: rest =>
    let head := classify target r srv
    let tail := buildRebooting target rest
    (head.1 ++ tail.1, (if head.2 then [r] else []) ++ tail.2)

/-! ## Driver wait loop (`take_action`, lines 243–254)

One iteration of the wait loop.  `a1` is the `len(self.active)` read in the
`while` condition and `a2` the read used for `new_total` (they can differ
when a worker appends between the two reads).  The result is `none` when the
loop exits, otherwise `some (total', reported, sleepUnits)`: the updated
`total`, whether a new outstanding count was printed, and how long the
iteration sleeps.  The `time.sleep(5)` sits inside `if total != new_total:`
and `if total:`, so an iteration with an unchanged count neither reports
nor sleeps. -/
def waitStep (rebooting total a1 a2 : Nat) : Option (Nat × Bool × Nat) :=
  if a1 < rebooting then
    if total ≠ rebooting - a2 then
      if rebooting - a2 ≠ 0 then some (rebooting - a2, true, 5)
      else some (rebooting - a2, false, 0)
    else some (total, false, 0)
  else none

/-! ## Orchestration transition system

A small-step model of the shared state of `take_action` and one
`check_alive` worker.  The shared `queue` and `active` are deques appended
on the right; `queue.pop()` removes from the right.  The worker's local
control point is `WPhase`: inside the blocking `pop()` retry loop, holding a
router inside the poll loop (together with the pop-time baseline id), or
returned from `check_alive`.

The labels carry the oracle data of each step: the routers seeded by the
driver, the baseline id recorded at pop time, the refetched router and
instance of a poll iteration.  `show_router(router['id'])` returns the state
of that same router, so refetches preserve the id. -/

inductive WPhase where
  | popping
  | polling (held : Router) (old : Option String)
  | done
deriving DecidableEq

structure SysState where
  shutdown : Bool
  queue : List Router
  active : List Router
  phase : WPhase
deriving DecidableEq

inductive Act where
  | batchReset
  | seed (rs : List Router)
  | setShutdown
  | popRetry
  | popShutdown
  | popOk (old : Option String)
  | pollCont (r : Router) (server : Option Server)
  | converge (r : Router) (server : Server)
  | errRequeue (r : Router)
deriving DecidableEq

/-- Worker-side labels: steps taken by `check_alive`, as opposed to the
driver's `take_action`. -/
def Act.isWorker : Act → Bool
  | Act.batchReset => false
  | Act.seed _ => false
  | Act.setShutdown => false
  | _ => true

def Act.isErrRequeue : Act → Bool
  | Act.errRequeue _ => true
  | _ => false

def Act.isSeedOrReset : Act → Bool
  | Act.batchReset => true
  | Act.seed _ => true
  | _ => false

/-- One step of the driver or the worker.

* `batchReset` — `self.queue.clear(); self.active.clear()` (lines 210–211).
* `seed` — `self.queue.extend(rebooting)` (line 230).
* `setShutdown` — `THREAD_SHUTDOWN.set()` (line 266).
* `popRetry` — one pass of `pop()`'s retry loop observing the flag clear and
  an empty queue: sleep and retry (lines 304–310).
* `popShutdown` — `pop()` observing the flag: returns `(None, None)` and the
  main loop exits (lines 305–306, 315).
* `popOk` — `queue.pop()` succeeds; the baseline instance id `old` is
  recorded (lines 308, 311).
* `pollCont` — one poll iteration whose guard chain hits a `continue`
  (lines 316–329): no shared-state change, the refetched router is now held.
* `converge` — all four conditions hold: `active.append(router)` and control
  returns to `pop()` (lines 330–335).
* `errRequeue` — an exception caught at line 336: `queue.append(router)` and
  `continue`, the worker still holding the router it just requeued. -/
inductive Step : SysState → Act → SysState → Prop where
  | batchReset (s : SysState) :
      Step s Act.batchReset { s with queue := [], active := [] }
  | seed (s : SysState) (rs : List Router) :
      Step s (Act.seed rs) { s with queue := s.queue ++ rs }
  | setShutdown (s : SysState) :
      Step s Act.setShutdown { s with shutdown := true }
  | popRetry (s : SysState) (h1 : s.shutdown = false) (h2 : s.phase = WPhase.popping)
      (h3 : s.queue = []) :
      Step s Act.popRetry s
  | popShutdown (s : SysState) (h1 : s.shutdown = true)
      (h2 : s.phase = WPhase.popping) :
      Step s Act.popShutdown { s with phase := WPhase.done }
  | popOk (s : SysState) (q : List Router) (r : Router) (old : Option String)
      (h1 : s.shutdown = false) (h2 : s.phase = WPhase.popping)
      (h3 : s.queue = q ++ [r]) :
      Step s (Act.popOk old) { s with queue := q, phase := WPhase.polling r old }
  | pollCont (s : SysState) (held r : Router) (old : Option String)
      (server : Option Server) (h1 : s.shutdown = false)
      (h2 : s.phase = WPhase.polling held old) (h3 : r.id = held.id)
      (h4 : pollDecision old r server = false) :
      Step s (Act.pollCont r server) { s with phase := WPhase.polling r old }
  | converge (s : SysState) (held r : Router) (old : Option String) (server : Server)
      (h1 : s.shutdown = false) (h2 : s.phase = WPhase.polling held old)
      (h3 : r.id = held.id) (h4 : pollDecision old r (some server) = true) :
      Step s (Act.converge r server)
        { s with active := s.active ++ [r], phase := WPhase.popping }
  | errRequeue (s : SysState) (held r : Router) (old : Option String)
      (h1 : s.shutdown = false) (h2 : s.phase = WPhase.polling held old)
      (h3 : r.id = held.id) :
      Step s (Act.errRequeue r)
        { s with queue := s.queue ++ [r], phase := WPhase.polling r old }

/-- A run of the system along a list of labels. -/
inductive Trace : SysState → List Act → SysState → Prop where
  | nil (s : SysState) : Trace s [] s
  | cons {s s1 s2 : SysState} {a : Act} {acts : List Act}
      (hstep : Step s a s1) (htail : Trace s1 acts s2) : Trace s (a :: acts) s2

/-- The state at process start: flag clear, both deques empty, the worker
inside the blocking pop. -/
def initState : SysState :=
  { shutdown := false, queue := [], active := [], phase := WPhase.popping }

/-- Invariant used for the single-batch disjointness argument: queue ids are
distinct, queue and active share no id, and a held router's id is in
neither deque. -/
def DisjInv (s : SysState) : Prop :=
  (s.queue.map Router.id).Nodup ∧
  (∀ i ∈ s.queue.map Router.id, i ∉ s.active.map Router.id) ∧
  (∀ r old, s.phase = WPhase.polling r old →
    r.id ∉ s.queue.map Router.id ∧ r.id ∉ s.active.map Router.id)

/-- Concrete router used in reachability runs. -/
def cexRouter : Router :=
  { id := "r-1", name := "ak-r-1", status := "ACTIVE" }

/-- Concrete replacement instance used in reachability runs: a new id,
ACTIVE. -/
def cexServer : Server :=
  { id := "vm-new", status := "ACTIVE", image := "img-1" }

/-- Router used for the C9 convergence trace. -/
def c9Router : Router :=
  { id := "rtr-9", name := "ak-rtr-9", status := "ACTIVE" }

/-- The five-state instance sequence of C9 for baseline `old-vm`:
old id and ACTIVE, missing, new id and DOWN, new id and BUILD, new id and
ACTIVE; the router reports ACTIVE throughout. -/
def c9Obs : List PollObs :=
  [ { router := c9Router, server := some { id := "old-vm", status := "ACTIVE", image := "img" } },
    { router := c9Router, server := none },
    { router := c9Router, server := some { id := "new-vm", status := "DOWN", image := "img" } },
    { router := c9Router, server := some { id := "new-vm", status := "BUILD", image := "img" } },
    { router := c9Router, server := some { id := "new-vm", status := "ACTIVE", image := "img" } } ]

/-- State after the driver reset the deques and seeded one router. -/
def seededState : SysState :=
  { shutdown := false, queue := [cexRouter], active := [],
    phase := WPhase.popping }

/-- Worker state polling `cexRouter` with baseline `vm-old` and an empty
queue (the router has just been popped). -/
def popState : SysState :=
  { shutdown := false, queue := [], active := [],
    phase := WPhase.polling cexRouter (some "vm-old") }

/-- State after the worker requeued `cexRouter` on an error while still
holding it. -/
def requeuedState : SysState :=
  { shutdown := false, queue := [cexRouter], active := [],
    phase := WPhase.polling cexRouter (some "vm-old") }

/-- State after a convergence-append from `popState`. -/
def convergedState : SysState :=
  { shutdown := false, queue := [], active := [cexRouter],
    phase := WPhase.popping }

/-- The state reached by seeding one router, popping it, requeueing it after
an error, and then observing convergence conditions: the router sits in both
the queue and the active deque. -/
def c3BadState : SysState :=
  { shutdown := false, queue := [cexRouter], active := [cexRouter],
    phase := WPhase.popping }

/-- A worker blocked in the pop retry loop after the shutdown flag was set. -/
def flaggedState : SysState :=
  { shutdown := true, queue := [], active := [], phase := WPhase.popping }

/-- A worker that has observed the shutdown flag and exited. -/
def exitedState : SysState :=
  { shutdown := true, queue := [], active := [], phase := WPhase.done }

theorem chunksOf_nil_or_zero (l : List α) (n : Nat) (h : l = [] ∨ n = 0) :
    chunksOf l n = [] := by
  rw [chunksOf]
  rcases h with h | h
  · subst h
    simp
  · simp [h]

theorem chunksOf_cons (l : List α) (n : Nat) (h1 : l ≠ []) (h2 : n ≠ 0) :
    chunksOf l n = l.take n :: chunksOf (l.drop n) n := by
  have hlen : l.length ≠ 0 := fun h => h1 (List.length_eq_zero.mp h)
  rw [chunksOf]
  simp [hlen, h2]

/-- Ceiling-division step used to count chunks. -/
theorem ceilDiv_succ (L m : Nat) (hm : m ≠ 0) (hL : 0 < L) :
    (L + (m - 1)) / m = ((L - m) + (m - 1)) / m + 1 := by
  rcases le_or_lt m L with h | h
  · have heq : L + (m - 1) = ((L - m) + (m - 1)) + m := by omega
    rw [heq, Nat.add_div_right _ (Nat.pos_of_ne_zero hm)]
  · have h1 : L - m = 0 := by omega
    have h2 : L + (m - 1) = (L - 1) + m := by omega
    rw [h1, h2, Nat.add_div_right _ (Nat.pos_of_ne_zero hm),
      Nat.div_eq_of_lt (by omega), Nat.div_eq_of_lt (by omega)]

/-- The index-and-slice form produced by `chunked` agrees with `chunksOf`. -/
theorem range_map_chunksOf (m : Nat) (hm : m ≠ 0) :
    ∀ (L : Nat) (l : List α), l.length = L →
      (List.range ((L + (m - 1)) / m)).map (fun k => (l.drop (m * k)).take m) =
        chunksOf l m := by
  intro L
  induction L using Nat.strong_induction_on with
  | _ L IH =>
    intro l hl
    by_cases hnil : l = []
    · subst hnil
      simp only [List.length_nil] at hl
      subst hl
      rw [Nat.zero_add, Nat.div_eq_of_lt (by omega),
        chunksOf_nil_or_zero [] m (Or.inl rfl)]
      simp
    · have hL : 0 < L := hl ▸ List.length_pos.mpr hnil
      rw [ceilDiv_succ L m hm hL, List.range_succ_eq_map, List.map_cons,
        List.map_map, chunksOf_cons l m hnil hm]
      have hdlen : (l.drop m).length = L - m := by simp [hl]
      have htail := IH (L - m) (by omega) (l.drop m) hdlen
      congr 1
      rw [← htail]
      apply List.map_congr_left
      intro k _
      show (l.drop (m * Nat.succ k)).take m = ((l.drop m).drop (m * k)).take m
      rw [Nat.mul_succ, List.drop_drop]
      congr 2
      omega

theorem chunked_eq_chunksOf (l : List α) (n : Int) (hn : 1 ≤ n) :
    chunked l n = Except.ok (chunksOf l n.toNat) := by
  have h0 : ¬(n = 0) := by omega
  have hpos : 0 < n := by omega
  have hm : n.toNat ≠ 0 := by omega
  unfold chunked xrange
  rw [if_neg h0, if_pos hpos]
  simp only [Except.map]
  rw [List.map_map]
  exact congrArg Except.ok (range_map_chunksOf n.toNat hm l.length l rfl)

theorem chunksOf_flatten (n : Nat) (hn : n ≠ 0) :
    ∀ (L : Nat) (l : List α), l.length = L → (chunksOf l n).flatten = l := by
  intro L
  induction L using Nat.strong_induction_on with
  | _ L IH =>
    intro l hl
    by_cases hnil : l = []
    · subst hnil
      rw [chunksOf_nil_or_zero [] n (Or.inl rfl)]
      rfl
    · have hL : 0 < L := hl ▸ List.length_pos.mpr hnil
      rw [chunksOf_cons l n hnil hn, List.flatten_cons,
        IH (L - n) (by omega) (l.drop n) (by simp [hl]),
        List.take_append_drop]

theorem chunksOf_length (n : Nat) (hn : n ≠ 0) (l : List α) :
    (chunksOf l n).length = (l.length + (n - 1)) / n := by
  rw [← range_map_chunksOf n hn l.length l rfl]
  simp

theorem chunksOf_ne_nil_aux (n : Nat) (hn : n ≠ 0) :
    ∀ (L : Nat) (l : List α), l.length = L → ∀ c ∈ chunksOf l n, c ≠ [] := by
  intro L
  induction L using Nat.strong_induction_on with
  | _ L IH =>
    intro l hl
    by_cases hnil : l = []
    · simp [chunksOf_nil_or_zero l n (Or.inl hnil)]
    · have hL : 0 < l.length := List.length_pos.mpr hnil
      rw [chunksOf_cons l n hnil hn]
      intro c hc
      rcases List.mem_cons.mp hc with h | h
      · subst h
        apply List.length_pos.mp
        simp only [List.length_take]
        omega
      · exact IH (l.drop n).length (by simp only [List.length_drop]; omega)
          (l.drop n) rfl c h

theorem chunksOf_ne_nil (n : Nat) (hn : n ≠ 0) (l : List α) :
    ∀ c ∈ chunksOf l n, c ≠ [] :=
  chunksOf_ne_nil_aux n hn l.length l rfl

theorem chunksOf_dropLast_aux (n : Nat) (hn : n ≠ 0) :
    ∀ (L : Nat) (l : List α), l.length = L →
      ∀ c ∈ (chunksOf l n).dropLast, c.length = n := by
  intro L
  induction L using Nat.strong_induction_on with
  | _ L IH =>
    intro l hl
    by_cases hnil : l = []
    · simp [chunksOf_nil_or_zero l n (Or.inl hnil)]
    · have hL : 0 < l.length := List.length_pos.mpr hnil
      rw [chunksOf_cons l n hnil hn]
      by_cases hd : l.drop n = []
      · rw [chunksOf_nil_or_zero _ n (Or.inl hd)]
        simp
      · have hdlen : 0 < (l.drop n).length := List.length_pos.mpr hd
        have hnlt : n < l.length := by
          simp only [List.length_drop] at hdlen
          omega
        rw [chunksOf_cons (l.drop n) n hd hn, List.dropLast_cons₂]
        intro c hc
        rcases List.mem_cons.mp hc with h | h
        · subst h
          simp only [List.length_take]
          omega
        · rw [← chunksOf_cons (l.drop n) n hd hn] at h
          exact IH (l.drop n).length
            (by simp only [List.length_drop]; omega) (l.drop n) rfl c h

theorem chunksOf_dropLast (n : Nat) (hn : n ≠ 0) (l : List α) :
    ∀ c ∈ (chunksOf l n).dropLast, c.length = n :=
  chunksOf_dropLast_aux n hn l.length l rfl

theorem chunksOf_getLast_aux (n : Nat) (hn : n ≠ 0) :
    ∀ (L : Nat) (l : List α), l.length = L →
      ∀ c, (chunksOf l n).getLast? = some c →
        c.length = if l.length % n = 0 then n else l.length % n := by
  intro L
  induction L using Nat.strong_induction_on with
  | _ L IH =>
    intro l hl
    by_cases hnil : l = []
    · simp [chunksOf_nil_or_zero l n (Or.inl hnil)]
    · have hL : 0 < l.length := List.length_pos.mpr hnil
      rw [chunksOf_cons l n hnil hn]
      by_cases hd : l.drop n = []
      · have hle : l.length ≤ n := by
          have := List.length_drop n l
          rw [hd] at this
          simp at this
          omega
        rw [chunksOf_nil_or_zero _ n (Or.inl hd)]
        intro c hc
        simp only [List.getLast?_singleton, Option.some.injEq] at hc
        subst hc
        simp only [List.length_take]
        rcases Nat.eq_or_lt_of_le hle with heq | hlt
        · rw [heq, Nat.mod_self]
          simp
        · rw [Nat.mod_eq_of_lt hlt, if_neg (by omega)]
          omega
      · have hdlen : 0 < (l.drop n).length := List.length_pos.mpr hd
        have hnlt : n < l.length := by
          simp only [List.length_drop] at hdlen
          omega
        rw [chunksOf_cons (l.drop n) n hd hn, List.getLast?_cons_cons,
          ← chunksOf_cons (l.drop n) n hd hn]
        intro c hc
        have hIH := IH (l.drop n).length (by simp only [List.length_drop]; omega)
          (l.drop n) rfl c hc
        have hmod : (l.length - n) % n = l.length % n := by
          conv_rhs => rw [show l.length = (l.length - n) + n from by omega]
          rw [Nat.add_mod_right]
        rw [hIH, List.length_drop, hmod]

theorem chunksOf_getLast (n : Nat) (hn : n ≠ 0) (l : List α) :
    ∀ c, (chunksOf l n).getLast? = some c →
      c.length = if l.length % n = 0 then n else l.length % n :=
  chunksOf_getLast_aux n hn l.length l rfl

theorem disjInv_step {s s' : SysState} {a : Act} (hinv : DisjInv s)
    (hstep : Step s a s') (herr : a.isErrRequeue = false)
    (hseed : a.isSeedOrReset = false) : DisjInv s' := by
  obtain ⟨hnd, hdisj, hheld⟩ := hinv
  cases hstep with
  | batchReset => simp [Act.isSeedOrReset] at hseed
  | seed rs => simp [Act.isSeedOrReset] at hseed
  | setShutdown => exact ⟨hnd, hdisj, hheld⟩
  | popRetry h1 h2 h3 => exact ⟨hnd, hdisj, hheld⟩
  | popShutdown h1 h2 =>
    refine ⟨hnd, hdisj, ?_⟩
    intro r old hph
    simp at hph
  | popOk q r old h1 h2 h3 =>
    rw [h3] at hnd hdisj
    simp only [List.map_append, List.nodup_append] at hnd
    refine ⟨hnd.1, ?_, ?_⟩
    · intro i hi
      exact hdisj i (by simp [hi])
    · intro r2 old2 hph
      simp only [WPhase.polling.injEq] at hph
      obtain ⟨hr, _⟩ := hph
      subst hr
      refine ⟨?_, hdisj r.id (by simp)⟩
      intro hmem
      exact hnd.2.2 hmem (by simp)
  | pollCont held r old server h1 h2 h3 h4 =>
    refine ⟨hnd, hdisj, ?_⟩
    intro r2 old2 hph
    simp only [WPhase.polling.injEq] at hph
    obtain ⟨hr, _⟩ := hph
    subst hr
    rw [h3]
    exact hheld held old h2
  | converge held r old server h1 h2 h3 h4 =>
    obtain ⟨hq, ha⟩ := hheld held old h2
    refine ⟨hnd, ?_, ?_⟩
    · intro i hi
      simp only [List.map_append, List.mem_append]
      rintro (hmem | hmem)
      · exact hdisj i hi hmem
      · simp at hmem
        rw [hmem, h3] at hi
        exact hq hi
    · intro r2 old2 hph
      simp at hph
  | errRequeue held r old h1 h2 h3 =>
    simp [Act.isErrRequeue] at herr

theorem disjInv_trace {acts : List Act} :
    ∀ {s s' : SysState}, DisjInv s → Trace s acts s' →
      (∀ a ∈ acts, a.isErrRequeue = false ∧ a.isSeedOrReset = false) →
      DisjInv s' := by
  induction acts with
  | nil =>
    intro s s' hinv htr _
    cases htr
    exact hinv
  | cons a acts IH =>
    intro s s' hinv htr hacts
    cases htr with
    | cons hstep htail =>
      have ha := hacts a (List.mem_cons_self a acts)
      exact IH (disjInv_step hinv hstep ha.1 ha.2) htail
        (fun b hb => hacts b (List.mem_cons_of_mem a hb))

/-! ## Claim theorems -/

/-- C5: for every list `l` and every positive chunk size `n`, `chunked l n`
succeeds and yields chunks whose concatenation equals `l` exactly, every
chunk except possibly the last has length `n`, and the last has length
`l.length % n` (or `n` when `n` divides `l.length`). -/
theorem chunked_chunk_spec {β : Type u} (l : List β) (n : Int) (hn : 1 ≤ n) :
    ∃ cs, chunked l n = Except.ok cs ∧ cs.flatten = l ∧
      (∀ c ∈ cs.dropLast, c.length = n.toNat) ∧
      (∀ c, cs.getLast? = some c →
        c.length = if l.length % n.toNat = 0 then n.toNat else l.length % n.toNat) := by
  have hm : n.toNat ≠ 0 := by omega
  exact ⟨chunksOf l n.toNat, chunked_eq_chunksOf l n hn,
    chunksOf_flatten n.toNat hm l.length l rfl,
    chunksOf_dropLast n.toNat hm l,
    chunksOf_getLast n.toNat hm l⟩

/-- Witness for C5 on a concrete odd-length list. -/
theorem chunked_chunk_spec_witness :
    ∃ cs, chunked ([0, 1, 2, 3, 4] : List Nat) 2 = Except.ok cs ∧
      cs.flatten = [0, 1, 2, 3, 4] := by
  obtain ⟨cs, h1, h2, _⟩ := chunked_chunk_spec ([0, 1, 2, 3, 4] : List Nat) 2 (by norm_num)
  exact ⟨cs, h1, h2⟩

/-- C10: `chunked` is total exactly for positive chunk sizes: for `1 ≤ n` it
yields `⌈l.length / n⌉` chunks, none empty; for `n = 0` the underlying
`xrange` raises instead of returning; and the `--batch` flag accepts
non-positive integers unchanged (default 15). -/
theorem chunked_total_iff_pos {β : Type u} (l : List β) (n : Int) :
    (1 ≤ n → ∃ cs, chunked l n = Except.ok cs ∧
      cs.length = (l.length + (n.toNat - 1)) / n.toNat ∧ ∀ c ∈ cs, c ≠ []) ∧
    chunked l 0 = Except.error "xrange() arg 3 must not be zero" ∧
    parseBatch none = 15 ∧ parseBatch (some 0) = 0 ∧
    parseBatch (some (-5)) = -5 := by
  refine ⟨?_, ?_, rfl, rfl, rfl⟩
  · intro hn
    have hm : n.toNat ≠ 0 := by omega
    exact ⟨chunksOf l n.toNat, chunked_eq_chunksOf l n hn,
      chunksOf_length n.toNat hm l, chunksOf_ne_nil n.toNat hm l⟩
  · rfl

/-- Witness for C10 at a concrete list and chunk sizes 2 and 0. -/
theorem chunked_total_iff_pos_witness :
    (∃ cs, chunked ([0, 1, 2] : List Nat) 2 = Except.ok cs ∧
      cs.length = (([0, 1, 2] : List Nat).length + ((2 : Int).toNat - 1)) / (2 : Int).toNat ∧
      ∀ c ∈ cs, c ≠ []) ∧
    chunked ([0, 1, 2] : List Nat) 0 =
      Except.error "xrange() arg 3 must not be zero" :=
  ⟨(chunked_total_iff_pos ([0, 1, 2] : List Nat) 2).1 (by norm_num),
    (chunked_total_iff_pos ([0, 1, 2] : List Nat) 2).2.1⟩

/-- C9: on the observation sequence `[old-id/ACTIVE, missing, new-id/DOWN,
new-id/BUILD, new-id/ACTIVE]` with baseline `old-vm`, the poll loop consumes
all five states (five polls), converges exactly at the fifth, and marks no
convergence on any proper prefix. -/
theorem convergence_trace_five_polls :
    pollRun (some "old-vm") c9Obs 0 = (5, true) ∧
    pollRun (some "old-vm") (c9Obs.take 1) 0 = (1, false) ∧
    pollRun (some "old-vm") (c9Obs.take 2) 0 = (2, false) ∧
    pollRun (some "old-vm") (c9Obs.take 3) 0 = (3, false) ∧
    pollRun (some "old-vm") (c9Obs.take 4) 0 = (4, false) := by
  decide

/-- C1 counterexample: a router whose instance lookup returns `None` is
reported missing but still falls through to the rebuild report and is
appended to `rebooting` (the source has no `continue` after the
"No VM found" print), contradicting the claim that it is skipped. -/
theorem no_vm_router_still_rebuilt_cex :
    buildRebooting "LATEST" [(cexRouter, none)] =
      ([Report.noVM "r-1", Report.rebuilding "r-1" "ak-r-1"], [cexRouter]) := rfl

/-- C1 amended: in the per-chunk loop, a router whose instance lookup
returns no instance is reported missing and is nevertheless marked for
rebuild: it is appended to the `rebooting` list (and hence subsequently
enqueued and passed to the rebuild action). -/
theorem no_vm_router_still_rebuilt (target : String)
    (chunk : List (Router × Option Server)) (r : Router)
    (hmem : (r, none) ∈ chunk) :
    Report.noVM r.id ∈ (buildRebooting target chunk).1 ∧
    r ∈ (buildRebooting target chunk).2 := by
  induction chunk with
  | nil => cases hmem
  | cons p rest IH =>
    rcases List.mem_cons.mp hmem with h | h
    · subst h
      refine ⟨?_, ?_⟩
      · simp [buildRebooting, classify]
      · simp [buildRebooting, classify]
    · obtain ⟨h1, h2⟩ := IH h
      refine ⟨?_, ?_⟩
      · simp only [buildRebooting]
        exact List.mem_append.mpr (Or.inr h1)
      · simp only [buildRebooting]
        exact List.mem_append.mpr (Or.inr h2)

/-- Witness for the amended C1 at a concrete chunk. -/
theorem no_vm_router_still_rebuilt_witness :
    Report.noVM cexRouter.id ∈ (buildRebooting "LATEST" [(cexRouter, none)]).1 ∧
    cexRouter ∈ (buildRebooting "LATEST" [(cexRouter, none)]).2 :=
  no_vm_router_still_rebuilt "LATEST" [(cexRouter, none)] cexRouter (by decide)

/-- C7 counterexample: with two routers outstanding and an unchanged count
(`total = 2`, both reads of `len(active)` returning 0), the wait iteration
continues (`some`) but neither reports nor sleeps — the loop re-checks
immediately, so it does busy-poll, contradicting the claim that a fixed
5-unit sleep separates successive checks. -/
theorem wait_loop_busy_polls_cex :
    waitStep 2 2 0 0 = some (2, false, 0) := rfl

/-- C7 amended: a wait iteration reports exactly when the outstanding count
changed to a nonzero value, the reported value is the new outstanding count
`rebooting - a2`, and the 5-unit sleep happens exactly on reporting
iterations; iterations with an unchanged (or zero) count neither report nor
sleep. -/
theorem wait_step_reports_iff_changed (rebooting total a1 a2 total2 : Nat)
    (reported : Bool) (sleep : Nat)
    (h : waitStep rebooting total a1 a2 = some (total2, reported, sleep)) :
    (reported = true ↔ (total ≠ rebooting - a2 ∧ rebooting - a2 ≠ 0)) ∧
    (reported = true → total2 = rebooting - a2 ∧ sleep = 5) ∧
    (reported = false → sleep = 0) := by
  unfold waitStep at h
  split at h
  · split at h
    case isTrue hne =>
      split at h
      case isTrue hnz =>
        simp only [Option.some.injEq, Prod.mk.injEq] at h
        obtain ⟨h1, h2, h3⟩ := h
        subst h1
        subst h2
        subst h3
        exact ⟨by simp [hne, hnz], fun _ => ⟨rfl, rfl⟩, by simp⟩
      case isFalse hnz =>
        simp only [Option.some.injEq, Prod.mk.injEq] at h
        obtain ⟨h1, h2, h3⟩ := h
        subst h1
        subst h2
        subst h3
        exact ⟨by simp [hnz], by simp, fun _ => rfl⟩
    case isFalse hne =>
      simp only [Option.some.injEq, Prod.mk.injEq] at h
      obtain ⟨h1, h2, h3⟩ := h
      subst h1
      subst h2
      subst h3
      have htot : total = rebooting - a2 := by simpa using hne
      refine ⟨?_, by simp, fun _ => rfl⟩
      constructor
      · intro hfalse
        simp at hfalse
      · rintro ⟨hA, _⟩
        exact absurd htot hA
  · exact absurd h (by simp)

/-- Witness for the amended C7: 3 rebooting, count observed falling to 2. -/
theorem wait_step_reports_iff_changed_witness :
    ((true : Bool) = true ↔ ((3 : Nat) ≠ 3 - 1 ∧ 3 - 1 ≠ 0)) ∧
    ((true : Bool) = true → (2 : Nat) = 3 - 1 ∧ (5 : Nat) = 5) ∧
    ((true : Bool) = false → (5 : Nat) = 0) :=
  wait_step_reports_iff_changed 3 3 0 1 2 true 5 rfl

/-- C6 counterexample: when `get_instance` raises inside the *initial*
`pop()` (line 313, outside the `try` block), the exception escapes
`check_alive` and the worker terminates, contradicting the claim that every
router-specific external-call exception is caught. -/
theorem initial_pop_exception_escapes :
    checkAlive [cexRouter] (Except.error "nova timeout") [] =
      Except.error "nova timeout" := rfl

/-- C6 amended: exceptions raised by external calls inside the poll loop are
caught by the handler at line 336 — the worker requeues the router it holds
and continues, and `check_alive` returns normally whenever the initial
baseline lookup succeeded; only an exception in that initial pop-time
lookup escapes. -/
theorem poll_loop_errors_caught (q : List Router) (r : Router)
    (baseline : Option Server) (events : List PollEvent) :
    (∃ out, checkAlive (q ++ [r]) (Except.ok baseline) events = Except.ok out) ∧
    (∀ (queue active : List Router) (held : Router) (old : Option String)
        (afterShow : Option Router) (msg : String) (rest : List PollEvent),
      checkAliveLoop queue active held old (PollEvent.exn afterShow msg :: rest) =
        checkAliveLoop (queue ++ [afterShow.getD held]) active
          (afterShow.getD held) old rest) := by
  constructor
  · simp only [checkAlive, List.getLast?_concat]
    exact ⟨_, rfl⟩
  · intro queue active held old afterShow msg rest
    rfl

/-- C2 counterexample: a reachable run in which a worker pops the only
router, hits an error (reported and requeued at lines 337–347), and is then
*still polling that same router*: a further poll step on it is enabled for
the same worker, contradicting the claim that the next poll iteration
operates on a freshly popped router. -/
theorem err_requeue_not_fresh_pop_cex :
    Trace initState
      [Act.seed [cexRouter], Act.popOk (some "vm-old"), Act.errRequeue cexRouter]
      requeuedState ∧
    requeuedState.phase = WPhase.polling cexRouter (some "vm-old") ∧
    Step requeuedState (Act.pollCont cexRouter none) requeuedState := by
  refine ⟨?_, rfl, ?_⟩
  · exact Trace.cons (Step.seed initState [cexRouter])
      (Trace.cons (Step.popOk _ [] cexRouter (some "vm-old") rfl rfl rfl)
        (Trace.cons (Step.errRequeue _ cexRouter cexRouter (some "vm-old") rfl rfl rfl)
          (Trace.nil _)))
  · exact Step.pollCont _ cexRouter cexRouter (some "vm-old") none rfl rfl rfl rfl

/-- C2 amended: on an exception during polling the worker reports, appends
the held router back onto the queue, and continues its loop *still holding
that same router* (same id, same baseline): it does not pop a fresh item,
so the failed router is immediately retried by the same worker while also
being available in the queue for other workers. -/
theorem err_requeue_same_worker_retains (s s' : SysState) (held r : Router)
    (old : Option String) (hph : s.phase = WPhase.polling held old)
    (hstep : Step s (Act.errRequeue r) s') :
    s'.queue = s.queue ++ [r] ∧ s'.active = s.active ∧
    s'.phase = WPhase.polling r old ∧ r.id = held.id := by
  cases hstep with
  | errRequeue held2 r2 old2 h1 h2 h3 =>
    rw [hph] at h2
    injection h2 with hh ho
    subst hh
    subst ho
    exact ⟨rfl, rfl, rfl, h3⟩

/-- Witness for the amended C2 at a concrete error step. -/
theorem err_requeue_same_worker_retains_witness :
    requeuedState.queue = popState.queue ++ [cexRouter] ∧
    requeuedState.active = popState.active ∧
    requeuedState.phase = WPhase.polling cexRouter (some "vm-old") ∧
    cexRouter.id = cexRouter.id :=
  err_requeue_same_worker_retains popState requeuedState cexRouter cexRouter
    (some "vm-old") rfl
    (Step.errRequeue _ cexRouter cexRouter (some "vm-old") rfl rfl rfl)

/-- C3 counterexample: a state reachable through driver seeding, a worker
pop, a requeue-on-error and a convergence-append in which the same router
is simultaneously present in the PendingQueue and the CompletedSet,
contradicting the claimed invariant. -/
theorem disjointness_violated_cex :
    Trace initState
      [Act.seed [cexRouter], Act.popOk (some "vm-old"),
        Act.errRequeue cexRouter, Act.converge cexRouter cexServer] c3BadState ∧
    cexRouter ∈ c3BadState.queue ∧ cexRouter ∈ c3BadState.active := by
  refine ⟨?_, by decide, by decide⟩
  exact Trace.cons (Step.seed initState [cexRouter])
    (Trace.cons (Step.popOk _ [] cexRouter (some "vm-old") rfl rfl rfl)
      (Trace.cons (Step.errRequeue _ cexRouter cexRouter (some "vm-old") rfl rfl rfl)
        (Trace.cons (Step.converge _ cexRouter cexRouter (some "vm-old") cexServer
            rfl rfl rfl (by decide))
          (Trace.nil _))))

/-- C3 amended: within a single batch — one reset, one seeding of a chunk
with distinct router ids — every subsequent driver and worker operation
*except* the worker's requeue-on-error preserves the disjointness of the
queue and the active deque; the requeue-on-error step leaves the worker
holding the very router it pushed back, and (as the counterexample shows)
its later convergence-append then defeats the invariant. -/
theorem single_batch_disjoint (rs : List Router) (acts : List Act) (s : SysState)
    (hnd : (rs.map Router.id).Nodup)
    (htr : Trace initState (Act.batchReset :: Act.seed rs :: acts) s)
    (hacts : ∀ a ∈ acts, a.isErrRequeue = false ∧ a.isSeedOrReset = false) :
    ∀ r ∈ s.queue, r ∉ s.active := by
  cases htr with
  | cons hstep1 htail1 =>
    cases hstep1 with
    | batchReset =>
      cases htail1 with
      | cons hstep2 htail2 =>
        cases hstep2 with
        | seed =>
          have hinv : DisjInv
              { initState with queue := [] ++ rs, active := [] } := by
            refine ⟨by simpa using hnd, by simp, ?_⟩
            intro r old hph
            simp [initState] at hph
          have hfinal := disjInv_trace hinv htail2 hacts
          intro r hrq hra
          exact hfinal.2.1 r.id (List.mem_map_of_mem Router.id hrq)
            (List.mem_map_of_mem Router.id hra)

/-- Witness for the amended C3: a batch of one router, popped by the
worker; queue and active stay disjoint. -/
theorem single_batch_disjoint_witness :
    cexRouter ∉ seededState.active :=
  single_batch_disjoint [cexRouter] [] seededState (by decide)
    (Trace.cons (Step.batchReset initState)
      (Trace.cons (Step.seed _ [cexRouter]) (Trace.nil _)))
    (by
      intro a ha
      exact absurd ha (List.not_mem_nil a))
    cexRouter (by decide)

/-- C4: the worker's poll iteration marks the held router converged exactly
when all four conditions hold — instance present, instance ACTIVE, instance
id different from the pop-time baseline, router ACTIVE — in which case the
refetched router is appended to the active deque with the queue untouched;
when any condition fails the iteration changes neither deque and the worker
keeps polling. -/
theorem poll_marks_converged_iff :
    (∀ (old : Option String) (r : Router) (server : Option Server),
      pollDecision old r server = true ↔
        ∃ srv, server = some srv ∧ srv.status = "ACTIVE" ∧
          old ≠ some srv.id ∧ r.status = "ACTIVE") ∧
    (∀ (s : SysState) (held r : Router) (old : Option String) (srv : Server)
        (s' : SysState), s.phase = WPhase.polling held old →
      (Step s (Act.converge r srv) s' →
        pollDecision old r (some srv) = true ∧
        s'.active = s.active ++ [r] ∧ s'.queue = s.queue) ∧
      (∀ server : Option Server, Step s (Act.pollCont r server) s' →
        pollDecision old r server = false ∧
        s'.active = s.active ∧ s'.queue = s.queue ∧
        s'.phase = WPhase.polling r old)) := by
  constructor
  · intro old r server
    cases server with
    | none => simp [pollDecision]
    | some srv =>
      by_cases h1 : srv.status = "ACTIVE" <;>
        by_cases h2 : old = some srv.id <;>
          by_cases h3 : r.status = "ACTIVE" <;>
            simp [pollDecision, h1, h2, h3]
  · intro s held r old srv s' hph
    constructor
    · intro hstep
      cases hstep with
      | converge held2 r2 old2 srv2 h1 h2 h3 h4 =>
        rw [hph] at h2
        injection h2 with hh ho
        subst ho
        exact ⟨h4, rfl, rfl⟩
    · intro server hstep
      cases hstep with
      | pollCont held2 r2 old2 srv2 h1 h2 h3 h4 =>
        rw [hph] at h2
        injection h2 with hh ho
        subst ho
        exact ⟨h4, rfl, rfl, rfl⟩

/-- Witness for C4: the decision is true on a new ACTIVE instance with an
ACTIVE router, and a concrete converge step appends to the active deque. -/
theorem poll_marks_converged_iff_witness :
    (pollDecision (some "vm-old") cexRouter (some cexServer) = true ↔
      ∃ srv, some cexServer = some srv ∧ srv.status = "ACTIVE" ∧
        (some "vm-old" : Option String) ≠ some srv.id ∧
        cexRouter.status = "ACTIVE") ∧
    (pollDecision (some "vm-old") cexRouter (some cexServer) = true ∧
      convergedState.active = popState.active ++ [cexRouter] ∧
      convergedState.queue = popState.queue) :=
  ⟨poll_marks_converged_iff.1 (some "vm-old") cexRouter (some cexServer),
    (poll_marks_converged_iff.2 popState cexRouter cexRouter (some "vm-old")
        cexServer convergedState rfl).1
      (Step.converge _ cexRouter cexRouter (some "vm-old") cexServer
        rfl rfl rfl (by decide))⟩

/-- C8: once the shutdown flag is set, a worker blocked in the pop retry
loop has exactly one enabled step — observing the flag and exiting with the
queue and active deque untouched — and a finished worker takes no further
worker step at all: it never pops, pushes, or appends after observing the
flag. -/
theorem shutdown_stops_worker :
    (∀ s : SysState, s.shutdown = true → s.phase = WPhase.popping →
      Step s Act.popShutdown { s with phase := WPhase.done }) ∧
    (∀ (s s' : SysState) (a : Act), s.shutdown = true →
      s.phase = WPhase.popping → a.isWorker = true → Step s a s' →
      a = Act.popShutdown ∧ s'.queue = s.queue ∧ s'.active = s.active ∧
        s'.phase = WPhase.done) ∧
    (∀ (s s' : SysState) (a : Act), s.phase = WPhase.done →
      a.isWorker = true → ¬ Step s a s') := by
  refine ⟨fun s h1 h2 => Step.popShutdown s h1 h2, ?_, ?_⟩
  · intro s s' a hsd hph hw hstep
    cases hstep with
    | batchReset => simp [Act.isWorker] at hw
    | seed rs => simp [Act.isWorker] at hw
    | setShutdown => simp [Act.isWorker] at hw
    | popRetry h1 h2 h3 =>
      rw [hsd] at h1
      simp at h1
    | popShutdown h1 h2 => exact ⟨rfl, rfl, rfl, rfl⟩
    | popOk q r old h1 h2 h3 =>
      rw [hsd] at h1
      simp at h1
    | pollCont held r old server h1 h2 h3 h4 =>
      rw [hph] at h2
      simp at h2
    | converge held r old server h1 h2 h3 h4 =>
      rw [hph] at h2
      simp at h2
    | errRequeue held r old h1 h2 h3 =>
      rw [hph] at h2
      simp at h2
  · intro s s' a hph hw hstep
    cases hstep with
    | batchReset => simp [Act.isWorker] at hw
    | seed rs => simp [Act.isWorker] at hw
    | setShutdown => simp [Act.isWorker] at hw
    | popRetry h1 h2 h3 =>
      rw [hph] at h2
      simp at h2
    | popShutdown h1 h2 =>
      rw [hph] at h2
      simp at h2
    | popOk q r old h1 h2 h3 =>
      rw [hph] at h2
      simp at h2
    | pollCont held r old server h1 h2 h3 h4 =>
      rw [hph] at h2
      simp at h2
    | converge held r old server h1 h2 h3 h4 =>
      rw [hph] at h2
      simp at h2
    | errRequeue held r old h1 h2 h3 =>
      rw [hph] at h2
      simp at h2

/-- Witness for C8: a concrete blocked worker exits on the set flag, and a
finished worker has no retry step. -/
theorem shutdown_stops_worker_witness :
    Step flaggedState Act.popShutdown exitedState ∧
    ¬ Step exitedState Act.popRetry exitedState :=
  ⟨shutdown_stops_worker.1 flaggedState rfl rfl,
    shutdown_stops_worker.2.2 exitedState exitedState Act.popRetry rfl rfl⟩
